import Mathlib

/-!
Verification of the `skidl` base-object module (`src/skidl/baseobj.py`).

The file shallowly embeds the module's data model and operations:

* Part 1 models a `SkidlBaseObject` instance as an explicit state: a store of
  heap cells (field maps, alias containers, note containers) together with an
  entity record holding references into that store.  Heap cells make sharing
  and deep-copy independence expressible.  `__setattr__`, the `aliases` and
  `notes` properties and `copy` are translated from the source.  `AttrDict`,
  `Alias`, `Note` and the severity constants live in modules that are not part
  of the observed source, so those definitions are modelled from the spec and
  marked as such.

* Part 2 models the ERC rule-check engine: Python classes and instances with
  their `__dict__` entries for `erc_list` / `erc_assertion_list` (shared,
  mutable list cells in a heap), registration (`add_erc_function`,
  `add_erc_assertion`), and evaluation (`exec_function_list`,
  `eval_stmnt_list`, `ERC`).  ERC functions are abstract objects given meaning
  by a semantic parameter `sem` (they may mutate a program state and may
  raise); assertion statements are evaluated by a semantic parameter `ev`
  standing for Python `eval` over the captured (live) bindings.
-/

namespace Spec2Proof

/-! ## Association-list primitives (Python `dict` semantics, first match wins) -/

/-- Lookup in an association list; models Python `dict` lookup. -/
def lookupF {V : Type} : List (String × V) → String → Option V
  | [], _ => none
  | (k, v) :: rest, key => if k = key then some v else lookupF rest key

/-- Update/insert in an association list; models Python `dict` item assignment. -/
def setF {V : Type} : List (String × V) → String → V → List (String × V)
  | [], key, v => [(key, v)]
  | (k, w) :: rest, key, v =>
      if k = key then (key, v) :: rest else (k, w) :: setF rest key v

/-! ## Heap-cell primitives

Mutable Python objects (field maps, alias/note containers, the shared ERC
lists) are modelled as cells in a heap `List α`, addressed by position.  An
out-of-range reference reads as the empty cell. -/

/-- Read the cell at index `r`; empty cell when out of range. -/
def nthCell {α : Type} [EmptyCollection α] : List α → Nat → α
  | [], _ => ∅
  | c :: _, 0 => c
  | _ :: h, n + 1 => nthCell h n

instance listEmptyCollection {β : Type} : EmptyCollection (List β) := ⟨[]⟩

/-! ## Part 1: the `SkidlBaseObject` state model -/

/-- The store of heap cells backing the mutable containers of all entities:
field maps (`AttrDict` contents), alias containers, note containers. -/
structure Store (V : Type) where
  fieldHeap : List (List (String × V))
  aliasHeap : List (List String)
  noteHeap : List (List String)

/-- One `SkidlBaseObject` instance.

* `typ` — the runtime class name of the object;
* `fields` — the `"fields"` entry of the instance `__dict__`: a reference to
  the `AttrDict` cell owned by this entity;
* `aliasesAttr` / `notesAttr` — the `"_aliases"` / `"_notes"` entries of the
  instance `__dict__` when the backing storage exists (`none` = attribute
  absent, reads raise `AttributeError` inside the property getters);
* `attrs` — the remaining plain-valued instance attributes.

Container-valued attributes are tracked in their own components; the mirroring
of the `_aliases`/`_notes` container objects themselves into the field map is
not modelled, since no modelled operation ever reads a field-map entry under
those keys. -/
structure Entity (V : Type) where
  typ : String
  fields : Nat
  aliasesAttr : Option Nat
  notesAttr : Option Nat
  attrs : List (String × V)

/-- Content of the field map (`AttrDict`) owned by `e`. -/
def fieldMapOf {V : Type} (s : Store V) (e : Entity V) : List (String × V) :=
  nthCell s.fieldHeap e.fields

/-- Modelled from the spec: `AttrDict.sync` (file `AttrDict.py` is not under
`src/`).  Spec §4.1: "if the owner's attribute named `key` currently exists,
copy its value into the map under `key`; otherwise leave the map untouched for
that key"; the map "must reject `key == "fields"` as a syncable entry".
"Attribute exists" is read as: `key` is one of the owner's regular (plain)
instance attributes. -/
def sync {V : Type} (m : List (String × V)) (attrs : List (String × V))
    (key : String) : List (String × V) :=
  if key = "fields" then m
  else
    match lookupF attrs key with
    | some v => setF m key v
    | none => m

/-- Models `SkidlBaseObject.__setattr__`, `else` branch (`key != "fields"`): store the
value with `super().__setattr__(key, value)`, then `self.fields.sync(key)`.
The `"fields"` branch of the same method is `setFields` below. -/
def setattr {V : Type} (s : Store V) (e : Entity V) (key : String) (v : V) :
    Store V × Entity V :=
  let e' : Entity V := { e with attrs := setF e.attrs key v }
  let fm := fieldMapOf s e'
  ({ s with fieldHeap := s.fieldHeap.set e'.fields (sync fm e'.attrs key) }, e')

/-- Models `SkidlBaseObject.__setattr__`, `"fields"` branch: the assigned mapping is
cast to a fresh `AttrDict(attr_obj=self, **value)` owned by the entity (a new
heap cell whose content is the mapping; a Python mapping has unique keys, so
building the `AttrDict` from it keeps the content). -/
def setFields {V : Type} (s : Store V) (e : Entity V) (m : List (String × V)) :
    Store V × Entity V :=
  ({ s with fieldHeap := s.fieldHeap ++ [m] }, { e with fields := s.fieldHeap.length })

/-- Models `SkidlBaseObject.__init__`: `self.fields = AttrDict(attr_obj=self)` — a
fresh entity owning a fresh empty field map. -/
def newSkidlBaseObject {V : Type} (s : Store V) : Store V × Entity V :=
  ({ s with fieldHeap := s.fieldHeap ++ [[]] },
   { typ := "SkidlBaseObject", fields := s.fieldHeap.length,
     aliasesAttr := none, notesAttr := none, attrs := [] })

/-- The argument shape accepted by the alias/note setters: a single name/text
or a sequence of them. -/
inductive StrOrList where
  | str : String → StrOrList
  | list : List String → StrOrList

/-- Python truthiness of the setter argument: a string is falsy iff empty, a
sequence is falsy iff empty. -/
def StrOrList.falsy : StrOrList → Bool
  | .str s => s.isEmpty
  | .list l => l.isEmpty

/-- The names/texts carried by the argument (a single name is one entry). -/
def StrOrList.toNames : StrOrList → List String
  | .str s => [s]
  | .list l => l

/-- Modelled from the spec: the `Alias` constructor (file `Alias.py` is not
under `src/`).  Spec §2/§3: an alias container is an "ordered sequence of
distinct name strings" built from a single name or a sequence of names. -/
def aliasMk (x : StrOrList) : List String := x.toNames.dedup

/-- Modelled from the spec: the `Note` constructor (file `Note.py` is not
under `src/`).  Spec §2/§3: an "ordered collection of free-text notes" built
from a single text or a sequence of texts. -/
def noteMk (x : StrOrList) : List String := x.toNames

/-- Property getter `SkidlBaseObject.aliases`: the backing container when the
`_aliases` attribute exists, otherwise a fresh empty `Alias([])` (reading is
pure: it neither creates backing storage nor changes the store). -/
def aliasesGet {V : Type} (s : Store V) (e : Entity V) : List String :=
  match e.aliasesAttr with
  | some r => nthCell s.aliasHeap r
  | none => []

/-- Property setter `SkidlBaseObject.aliases`: a falsy argument returns without
touching anything; otherwise `self._aliases = Alias(name_or_list)` stores a
freshly constructed container as the backing storage. -/
def aliasesSet {V : Type} (s : Store V) (e : Entity V) (x : StrOrList) :
    Store V × Entity V :=
  if x.falsy then (s, e)
  else
    ({ s with aliasHeap := s.aliasHeap ++ [aliasMk x] },
     { e with aliasesAttr := some s.aliasHeap.length })

/-- Property deleter `SkidlBaseObject.aliases`: `del self._aliases` guarded by
`except AttributeError: pass` — total, removes the backing storage when
present, is a no-op when absent. -/
def aliasesDel {V : Type} (e : Entity V) : Entity V := { e with aliasesAttr := none }

/-- Property getter `SkidlBaseObject.notes` (same pattern as `aliases`). -/
def notesGet {V : Type} (s : Store V) (e : Entity V) : List String :=
  match e.notesAttr with
  | some r => nthCell s.noteHeap r
  | none => []

/-- Property setter `SkidlBaseObject.notes` (same pattern as `aliases`):
falsy argument is a no-op, otherwise `self._notes = Note(text_or_notes)`. -/
def notesSet {V : Type} (s : Store V) (e : Entity V) (x : StrOrList) :
    Store V × Entity V :=
  if x.falsy then (s, e)
  else
    ({ s with noteHeap := s.noteHeap ++ [noteMk x] },
     { e with notesAttr := some s.noteHeap.length })

/-- Property deleter `SkidlBaseObject.notes`: idempotent removal. -/
def notesDel {V : Type} (e : Entity V) : Entity V := { e with notesAttr := none }

/-- Models `SkidlBaseObject.copy`:

```
cpy = SkidlBaseObject()
cpy.fields = deepcopy(self.fields)
try: cpy.aliases = deepcopy(self.aliases)
except AttributeError: pass
try: cpy.notes = deepcopy(self.notes)
except AttributeError: pass
```

`deepcopy` of a container is modelled by passing its content; assignment then
allocates fresh cells.  The property getters never raise `AttributeError`
(they catch it and return an empty container), so the two `except` arms are
dead and the assignments always run; for an absent or empty source container
the deep-copied value is falsy and the setter ignores it. -/
def copy {V : Type} (s : Store V) (e : Entity V) : Store V × Entity V :=
  let p1 := newSkidlBaseObject s
  let p2 := setFields p1.1 p1.2 (fieldMapOf p1.1 e)
  let p3 := aliasesSet p2.1 p2.2 (.list (aliasesGet p2.1 e))
  let p4 := notesSet p3.1 p3.2 (.list (notesGet p3.1 e))
  p4

/-! ## Part 2: the ERC rule-check engine model

Python objects relevant to ERC: a class has `__dict__` entries for
`erc_list` / `erc_assertion_list` (or inherits them from a base class — the
fallback lists on `SkidlBaseObject` itself), an instance may have its own
entries.  The lists are mutable objects shared by reference, so they live as
cells in a heap; `__dict__` entries are references to cells. -/

/-- A Python exception raised while evaluating an assertion expression or
running an ERC function. -/
inductive PyErr where
  | assertionError : PyErr
  | nameError : String → PyErr
  | otherError : String → PyErr
deriving DecidableEq, Repr

/-- The record built by `SkidlBaseObject.add_erc_assertion`: the namedtuple
`EvalTuple(stmnt, fail_msg, severity, filename, lineno, function, globals,
locals)`.  The captured `globals`/`locals` are live references into the
caller's scope, so evaluation reads the program state current at evaluation
time; they are therefore not stored in the record but supplied to the
evaluation semantics `ev` as the state argument. -/
structure EvalTuple where
  stmnt : String
  fail_msg : String
  severity : Nat
  lineno : Nat
  filename : String
  function : String
deriving DecidableEq, Repr

/-- Modelled from the spec: the severity constant `ERROR` (file `defines.py`
is not under `src/`); the spec only requires two distinct named levels. -/
def ERROR : Nat := 3

/-- Modelled from the spec: the severity constant `WARNING` (file `defines.py`
is not under `src/`). -/
def WARNING : Nat := 2

/-- Modelled from the spec: one message accepted by the logging sink
(`erc_logger` is not under `src/`): a severity level plus the formatted text. -/
structure LogEntry where
  level : Nat
  msg : String
deriving DecidableEq, Repr

/-- The message built by `erc_report` inside `eval_stmnt_list`:
`"{stmnt} {fail_msg} in {filename}:{lineno}:{function}."`. -/
def log_msg (t : EvalTuple) : String :=
  t.stmnt ++ " " ++ t.fail_msg ++ " in " ++ t.filename ++ ":" ++
    toString t.lineno ++ ":" ++ t.function ++ "."

/-- Models `erc_report` inside `eval_stmnt_list`: emit the message at `error` level
when `severity == ERROR`, at `warning` level when `severity == WARNING`, and
nothing otherwise (no `else` arm in the source). -/
def erc_report (t : EvalTuple) : List LogEntry :=
  if t.severity = ERROR then [⟨ERROR, log_msg t⟩]
  else if t.severity = WARNING then [⟨WARNING, log_msg t⟩]
  else []

/-- A Python class, restricted to what the ERC engine reads: the `erc_list`
and `erc_assertion_list` entries of its own `__dict__` (references into the
list heaps, `none` when the class does not define the entry itself) and the
base-class chain. -/
inductive PyClass where
  | mk : Option Nat → Option Nat → Option PyClass → PyClass

/-- The `erc_list` entry of the class's own `__dict__`. -/
def PyClass.ercDirect : PyClass → Option Nat
  | .mk r _ _ => r

/-- The `erc_assertion_list` entry of the class's own `__dict__`. -/
def PyClass.asrtDirect : PyClass → Option Nat
  | .mk _ r _ => r

/-- Python class-attribute lookup for `erc_list`: the class's own `__dict__`,
then the base-class chain (the MRO). -/
def PyClass.lookupErc : PyClass → Option Nat
  | .mk (some r) _ _ => some r
  | .mk none _ (some p) => PyClass.lookupErc p
  | .mk none _ none => none

/-- Python class-attribute lookup for `erc_assertion_list`. -/
def PyClass.lookupAsrt : PyClass → Option Nat
  | .mk _ (some r) _ => some r
  | .mk _ none (some p) => PyClass.lookupAsrt p
  | .mk _ none none => none

/-- A Python instance, restricted to what the ERC engine reads: the
`erc_list` / `erc_assertion_list` entries of the instance `__dict__` and the
class of the instance. -/
structure PyInst where
  ercRef : Option Nat
  asrtRef : Option Nat
  cls : PyClass

/-- Python attribute lookup `self.erc_list` on an instance: the instance
`__dict__`, then the class MRO. -/
def PyInst.attrErc (i : PyInst) : Option Nat :=
  match i.ercRef with
  | some r => some r
  | none => i.cls.lookupErc

/-- Python attribute lookup `self.erc_assertion_list` on an instance. -/
def PyInst.attrAsrt (i : PyInst) : Option Nat :=
  match i.asrtRef with
  | some r => some r
  | none => i.cls.lookupAsrt

/-- The heaps of shared mutable list objects: cells for `erc_list` lists
(holding abstract function objects `F`) and for `erc_assertion_list` lists
(holding `EvalTuple` records). -/
structure ErcWorld (F : Type) where
  funHeap : List (List F)
  asrtHeap : List (List EvalTuple)

/-- Models `list.append(x)` on the list object stored in cell `r`. -/
def appendCell {α : Type} (h : List (List α)) (r : Nat) (x : α) : List (List α) :=
  h.set r (nthCell h r ++ [x])

/-- Models `SkidlBaseObject.add_erc_function` invoked on an instance:
`self.erc_list.append(func)` — append to whatever list attribute lookup finds
(`none` = `AttributeError`, when no list is reachable). -/
def add_erc_function_inst {F : Type} (w : ErcWorld F) (i : PyInst) (f : F) :
    Option (ErcWorld F) :=
  match i.attrErc with
  | some r => some { w with funHeap := appendCell w.funHeap r f }
  | none => none

/-- Models `SkidlBaseObject.add_erc_function` invoked with a class as `self`:
`self.erc_list.append(func)` resolves through the class MRO. -/
def add_erc_function_cls {F : Type} (w : ErcWorld F) (c : PyClass) (f : F) :
    Option (ErcWorld F) :=
  match c.lookupErc with
  | some r => some { w with funHeap := appendCell w.funHeap r f }
  | none => none

/-- Models `SkidlBaseObject.add_erc_assertion` invoked on an instance: build the
`EvalTuple` from the call site (passed here already assembled) and
`self.erc_assertion_list.append(...)`. -/
def add_erc_assertion_inst {F : Type} (w : ErcWorld F) (i : PyInst) (t : EvalTuple) :
    Option (ErcWorld F) :=
  match i.attrAsrt with
  | some r => some { w with asrtHeap := appendCell w.asrtHeap r t }
  | none => none

/-- Models `SkidlBaseObject.add_erc_assertion` invoked with a class as `self`. -/
def add_erc_assertion_cls {F : Type} (w : ErcWorld F) (c : PyClass) (t : EvalTuple) :
    Option (ErcWorld F) :=
  match c.lookupAsrt with
  | some r => some { w with asrtHeap := appendCell w.asrtHeap r t }
  | none => none

/-- The class-wide function list read by `exec_function_list`: the body of
`if list_name in inst.__class__.__dict__` — only the direct class `__dict__`
is consulted, never the base classes. -/
def classFuns {F : Type} (w : ErcWorld F) (i : PyInst) : List F :=
  match i.cls.ercDirect with
  | some r => nthCell w.funHeap r
  | none => []

/-- The instance function list read by `exec_function_list`: the body of
`if list_name in inst.__dict__`. -/
def instFuns {F : Type} (w : ErcWorld F) (i : PyInst) : List F :=
  match i.ercRef with
  | some r => nthCell w.funHeap r
  | none => []

/-- The class-wide assertion list read by `eval_stmnt_list` (direct class
`__dict__` only). -/
def classAsserts {F : Type} (w : ErcWorld F) (i : PyInst) : List EvalTuple :=
  match i.cls.asrtDirect with
  | some r => nthCell w.asrtHeap r
  | none => []

/-- The instance assertion list read by `eval_stmnt_list`. -/
def instAsserts {F : Type} (w : ErcWorld F) (i : PyInst) : List EvalTuple :=
  match i.asrtRef with
  | some r => nthCell w.asrtHeap r
  | none => []

section Engine

variable {F St Args : Type}

/-- Run a list of ERC functions in order on the program state: each call is
`f(inst, *args, **kwargs)` via the semantics `sem`; a raised exception stops
the run.  Returns the functions actually invoked and the outcome. -/
def runFunctions (sem : F → PyInst → Args → St → Except PyErr St)
    (i : PyInst) (a : Args) : List F → St → List F × Except PyErr St
  | [], σ => ([], .ok σ)
  | f :: fs, σ =>
      match sem f i a σ with
      | .ok σ' =>
          let rest := runFunctions sem i a fs σ'
          (f :: rest.1, rest.2)
      | .error ex => ([f], .error ex)

/-- The state outcome of running the functions (the second component of
`runFunctions`, defined directly for use in hypotheses). -/
def foldFuns (sem : F → PyInst → Args → St → Except PyErr St)
    (i : PyInst) (a : Args) : List F → St → Except PyErr St
  | [], σ => .ok σ
  | f :: fs, σ =>
      match sem f i a σ with
      | .ok σ' => foldFuns sem i a fs σ'
      | .error ex => .error ex

/-- Models `exec_function_list(inst, "erc_list", *args, **kwargs)`: the class-wide
functions (direct class `__dict__` only), then the instance functions, each
called with the instance as first argument plus the supplied arguments. -/
def exec_function_list (w : ErcWorld F) (sem : F → PyInst → Args → St → Except PyErr St)
    (i : PyInst) (a : Args) (σ : St) : List F × Except PyErr St :=
  runFunctions sem i a (classFuns w i ++ instFuns w i) σ

/-- One iteration of the loops in `eval_stmnt_list`:

```
try: assert eval(evtpl.stmnt, evtpl.globals, evtpl.locals)
except AssertionError: erc_report(evtpl)
```

`ev` is the semantics of Python `eval` on the captured (live) bindings, which
read the current program state.  A false value makes `assert` raise
`AssertionError`, which is caught and reported; an `AssertionError` raised by
the evaluation itself is caught by the same handler; any other exception
propagates. -/
def evalOne (ev : String → St → Except PyErr Bool) (σ : St) (t : EvalTuple) :
    Except PyErr (List LogEntry) :=
  match ev t.stmnt σ with
  | .ok true => .ok []
  | .ok false => .ok (erc_report t)
  | .error .assertionError => .ok (erc_report t)
  | .error ex => .error ex

/-- Outcome of evaluating a list of assertion records: the records actually
evaluated, the messages emitted to the logging sink (in order), and the
uncaught exception, if any. -/
structure EvalOut where
  visited : List EvalTuple
  log : List LogEntry
  err : Option PyErr
deriving DecidableEq, Repr

/-- Evaluate assertion records in order; a report does not stop the run, an
uncaught exception does (messages already emitted stay emitted). -/
def evalTrace (ev : String → St → Except PyErr Bool) (σ : St) :
    List EvalTuple → EvalOut
  | [] => ⟨[], [], none⟩
  | t :: ts =>
      match evalOne ev σ t with
      | .error ex => ⟨[t], [], some ex⟩
      | .ok l =>
          let rest := evalTrace ev σ ts
          ⟨t :: rest.visited, l ++ rest.log, rest.err⟩

/-- Models `eval_stmnt_list(inst, "erc_assertion_list")`: the class-wide assertion
records (direct class `__dict__` only), then the instance records. -/
def eval_stmnt_list (w : ErcWorld F) (ev : String → St → Except PyErr Bool)
    (i : PyInst) (σ : St) : EvalOut :=
  evalTrace ev σ (classAsserts w i ++ instAsserts w i)

/-- One observable event of an ERC run: an ERC function call or the
evaluation of an assertion record. -/
inductive ErcEvent (F : Type) where
  | call : F → ErcEvent F
  | evalStmnt : EvalTuple → ErcEvent F
deriving DecidableEq, Repr

/-- The observable outcome of `SkidlBaseObject.ERC`: the ordered events, the
messages emitted to the logging sink, and either the final program state or
the exception that propagated to the caller. -/
structure ERCResult (F St : Type) where
  events : List (ErcEvent F)
  log : List LogEntry
  outcome : Except PyErr St
deriving Repr

/-- Models `SkidlBaseObject.ERC(*args, **kwargs)`:
`exec_function_list(self, "erc_list", *args, **kwargs)` then
`eval_stmnt_list(self, "erc_assertion_list")`; an exception raised in either
phase propagates and aborts the rest of the run. -/
def ERC (w : ErcWorld F) (sem : F → PyInst → Args → St → Except PyErr St)
    (ev : String → St → Except PyErr Bool) (i : PyInst) (a : Args) (σ : St) :
    ERCResult F St :=
  let fr := exec_function_list w sem i a σ
  match fr.2 with
  | .error ex => ⟨fr.1.map .call, [], .error ex⟩
  | .ok σf =>
      let eo := eval_stmnt_list w ev i σf
      ⟨fr.1.map .call ++ eo.visited.map .evalStmnt, eo.log,
        match eo.err with
        | some ex => .error ex
        | none => .ok σf⟩

end Engine

/-! ## Concrete instances used by witnesses and counterexamples -/

/-- A store holding one empty field-map cell. -/
def exStore : Store Nat := ⟨[[]], [], []⟩

/-- A freshly constructed base entity owning the field map in cell 0. -/
def exEntity : Entity Nat := ⟨"SkidlBaseObject", 0, none, none, []⟩

/-- A store with an empty field map in cell 0 and an empty alias container in
cell 0. -/
def exStoreEmptyAlias : Store Nat := ⟨[[]], [[]], []⟩

/-- An entity whose `_aliases` backing storage exists but holds no names — an
explicitly allowed state (spec §3: "non-empty vs. empty is a separate, allowed
state"), reachable e.g. via `e._aliases = Alias(iter([]))` (a truthy iterator
yielding no names) or by direct assignment to `_aliases`. -/
def exEntityEmptyAlias : Entity Nat := ⟨"SkidlBaseObject", 0, some 0, none, []⟩

/-- A store for the C5 witness: a field map `{"a": 1}`, an alias container
`["A", "B"]` and a note container `["x"]`. -/
def exStoreC5 : Store Nat := ⟨[[("a", 1)]], [["A", "B"]], [["x"]]⟩

/-- An entity of a subclass (`"Part"`) with fields, aliases, notes and one
subclass-specific attribute. -/
def exEntityC5 : Entity Nat := ⟨"Part", 0, some 0, some 0, [("z", 9)]⟩

/-- ERC functions for the C3 witness: function `n` adds `n` to the state. -/
def semAdd : Nat → PyInst → Unit → Nat → Except PyErr Nat :=
  fun f _ _ σ => .ok (σ + f)

/-- Evaluation semantics for the C3 witness: every expression reads the
(mutated) state and is true iff the state equals 12. -/
def evTwelve : String → Nat → Except PyErr Bool :=
  fun _ σ => .ok (σ == 12)

/-- An assertion record used by several witnesses (severity `ERROR`). -/
def exTupleA : EvalTuple := ⟨"x == 12", "FAILED", 3, 10, "rules.py", "setup"⟩

/-- A second assertion record (severity `ERROR`). -/
def exTupleB : EvalTuple := ⟨"x == 12", "ALSO FAILED", 3, 11, "rules.py", "setup"⟩

/-- A class whose own `__dict__` stores `erc_list` in cell 0 and
`erc_assertion_list` in cell 0. -/
def exCls3 : PyClass := .mk (some 0) (some 0) none

/-- An instance of `exCls3` with instance-level lists in cells 1/1. -/
def exInst3 : PyInst := ⟨some 1, some 1, exCls3⟩

/-- World for the C3 witness: class function `5`, instance function `7`,
class assertion `exTupleA`, instance assertion `exTupleB`. -/
def exW3 : ErcWorld Nat := ⟨[[5], [7]], [[exTupleA], [exTupleB]]⟩

/-- ERC functions for the C9 witness: `"bad"` raises, anything else adds 1. -/
def semRaise : String → PyInst → Unit → Nat → Except PyErr Nat :=
  fun f _ _ σ => if f = "bad" then .error (.otherError "ValueError") else .ok (σ + 1)

/-- World for the C9 witness: class functions `["good", "bad", "late"]` and a
class assertion that would be evaluated if the function phase completed. -/
def exW9 : ErcWorld String := ⟨[["good", "bad", "late"]], [[exTupleA]]⟩

/-- An instance of `exCls3` with no instance-level lists. -/
def exInst9 : PyInst := ⟨none, none, exCls3⟩

/-- The base class with its two fallback list cells (cell 0 of each heap). -/
def exBase : PyClass := .mk (some 0) (some 0) none

/-- A subclass of the base class that does not shadow either list. -/
def exSub : PyClass := .mk none none (some exBase)

/-- A fresh instance of the base class (no instance-level lists). -/
def exI1 : PyInst := ⟨none, none, exBase⟩

/-- A second, sibling fresh instance of the base class.  Python object
identity is not part of the modelled instance state: two distinct fresh
instances have identical `__dict__` contents and class. -/
def exI2 : PyInst := ⟨none, none, exBase⟩

/-- A fresh instance of the subclass. -/
def exJ : PyInst := ⟨none, none, exSub⟩

/-- A world holding only the two (empty) fallback list cells of the base
class. -/
def exW0 : ErcWorld String := ⟨[[]], [[]]⟩

/-- Trivial ERC-function semantics over `Unit` state: every call succeeds. -/
def semOkU : String → PyInst → Unit → Unit → Except PyErr Unit :=
  fun _ _ _ σ => .ok σ

/-- Trivial evaluation semantics over `Unit` state: everything is true. -/
def evTrueU : String → Unit → Except PyErr Bool := fun _ _ => .ok true

/-- A world with two function-list cells and one assertion-list cell. -/
def exWC2 : ErcWorld String := ⟨[[], []], [[]]⟩

/-- An instance of the base class owning a private `erc_list` in cell 1. -/
def exI1P : PyInst := ⟨some 1, none, exBase⟩

/-! ## Claim C4 -/

/-- An assertion record whose expression raises `AssertionError` from inside
evaluation (e.g. the expression calls a helper whose body runs a failing
`assert`). -/
def exTupleBoom : EvalTuple := ⟨"boom()", "FAILED", 3, 7, "rules.py", "setup"⟩

/-- A class storing only an assertion list (cell 0). -/
def exClsA : PyClass := .mk none (some 0) none

/-- A fresh instance of `exClsA`. -/
def exInstA : PyInst := ⟨none, none, exClsA⟩

/-- World for the C4 counterexample: one class assertion, no functions. -/
def exWA : ErcWorld Unit := ⟨[], [[exTupleBoom]]⟩

/-- Evaluation semantics: evaluating any expression raises `AssertionError`
(the evaluation itself fails; no truth value is produced). -/
def evBoom : String → Nat → Except PyErr Bool := fun _ _ => .error .assertionError

/-- Function semantics for worlds with no registered functions. -/
def semIdN : Unit → PyInst → Unit → Nat → Except PyErr Nat := fun _ _ _ σ => .ok σ

/-- An assertion record whose expression references an undefined name. -/
def exTupleN : EvalTuple := ⟨"undefined_name", "FAILED", 3, 9, "rules.py", "setup"⟩

/-- World for the C4 witness: one class assertion, no functions. -/
def exWN : ErcWorld Unit := ⟨[], [[exTupleN]]⟩

/-- Evaluation semantics: every expression raises a `NameError`. -/
def evName : String → Nat → Except PyErr Bool :=
  fun _ _ => .error (.nameError "undefined_name")

/-- The false-evaluating `ERROR`-severity record for the C8 witness. -/
def exTupleF : EvalTuple := ⟨"len(x) > 0", "empty", 3, 42, "mod.py", "check_x"⟩

/-- A record whose expression evaluates to true (for "subsequent assertions
still run" witnesses). -/
def exTupleT : EvalTuple := ⟨"true_stmt", "FAILED", 3, 43, "mod.py", "check_x"⟩

/-- World for the C8 witness: two class assertions, no functions. -/
def exW8 : ErcWorld Unit := ⟨[], [[exTupleF, exTupleT]]⟩

/-- Evaluation semantics: only the expression `"true_stmt"` is true. -/
def evOnlyTrue : String → Nat → Except PyErr Bool :=
  fun s _ => .ok (s == "true_stmt")

/-- A false-evaluating record with severity 0 — neither `ERROR` (3) nor
`WARNING` (2). -/
def exTupleZ : EvalTuple := ⟨"zero_sev", "FAILED", 0, 44, "mod.py", "check_x"⟩

/-- World for the C10 witness: the silent record then a true one. -/
def exW10 : ErcWorld Unit := ⟨[], [[exTupleZ, exTupleT]]⟩

/-! ## Lemmas and claim theorems -/

theorem lookupF_setF_self {V : Type} (m : List (String × V)) (k : String) (v : V) :
    lookupF (setF m k v) k = some v := by
  induction m with
  | nil => simp [setF, lookupF]
  | cons p rest ih =>
      by_cases h : p.1 = k
      · simp [setF, lookupF, h]
      · simp [setF, lookupF, h, ih]

theorem lookupF_setF_ne {V : Type} (m : List (String × V)) (k k' : String) (v : V)
    (h : k ≠ k') : lookupF (setF m k v) k' = lookupF m k' := by
  induction m with
  | nil => simp [setF, lookupF, h]
  | cons p rest ih =>
      by_cases hp : p.1 = k
      · simp [setF, lookupF, hp, h]
      · simp only [setF, hp, if_false, lookupF]
        by_cases hp' : p.1 = k'
        · simp [hp']
        · simp [hp', ih]

theorem nthCell_set_self {α : Type} [EmptyCollection α] (h : List α) (r : Nat) (c : α)
    (hr : r < h.length) : nthCell (h.set r c) r = c := by
  induction h generalizing r with
  | nil => simp at hr
  | cons a t ih =>
      cases r with
      | zero => rfl
      | succ n => exact ih n (by simpa using hr)

theorem nthCell_set_ne {α : Type} [EmptyCollection α] (h : List α) (r r' : Nat) (c : α)
    (hne : r ≠ r') : nthCell (h.set r c) r' = nthCell h r' := by
  induction h generalizing r r' with
  | nil => rfl
  | cons a t ih =>
      cases r with
      | zero =>
          cases r' with
          | zero => exact absurd rfl hne
          | succ m => rfl
      | succ n =>
          cases r' with
          | zero => rfl
          | succ m => exact ih n m (fun hc => hne (by rw [hc]))

theorem nthCell_append_self {α : Type} [EmptyCollection α] (h : List α) (c : α) :
    nthCell (h ++ [c]) h.length = c := by
  induction h with
  | nil => rfl
  | cons a t ih => simpa using ih

theorem nthCell_append_lt {α : Type} [EmptyCollection α] (h : List α) (c : α) (r : Nat)
    (hr : r < h.length) : nthCell (h ++ [c]) r = nthCell h r := by
  induction h generalizing r with
  | nil => simp at hr
  | cons a t ih =>
      cases r with
      | zero => rfl
      | succ n => exact ih n (by simpa using hr)

theorem emptyList_eq {β : Type} : (∅ : List β) = [] := rfl

/-! ## Supporting lemmas about the engine -/

section EngineLemmas

variable {F St Args : Type}
variable {sem : F → PyInst → Args → St → Except PyErr St}
variable {ev : String → St → Except PyErr Bool}

theorem runFunctions_ok {i : PyInst} {a : Args} {fs : List F} {σ : St} {σf : St}
    (h : foldFuns sem i a fs σ = .ok σf) :
    runFunctions sem i a fs σ = (fs, .ok σf) := by
  induction fs generalizing σ with
  | nil =>
      simp only [foldFuns] at h
      cases h
      rfl
  | cons f fs ih =>
      simp only [foldFuns] at h
      simp only [runFunctions]
      cases hs : sem f i a σ with
      | ok σ' =>
          rw [hs] at h
          simp [ih h]
      | error ex =>
          rw [hs] at h
          cases h

theorem runFunctions_error {i : PyInst} {a : Args} {pre post : List F} {g : F}
    {σ σ1 : St} {ex : PyErr}
    (hpre : foldFuns sem i a pre σ = .ok σ1) (hg : sem g i a σ1 = .error ex) :
    runFunctions sem i a (pre ++ g :: post) σ = (pre ++ [g], .error ex) := by
  induction pre generalizing σ with
  | nil =>
      simp only [foldFuns] at hpre
      cases hpre
      simp [runFunctions, hg]
  | cons f fs ih =>
      simp only [foldFuns] at hpre
      simp only [List.cons_append, runFunctions]
      cases hs : sem f i a σ with
      | ok σ' =>
          rw [hs] at hpre
          simp [ih hpre]
      | error e2 =>
          rw [hs] at hpre
          cases hpre

theorem evalTrace_visited_of_ok {σ : St} {ts : List EvalTuple}
    (h : (evalTrace ev σ ts).err = none) : (evalTrace ev σ ts).visited = ts := by
  induction ts with
  | nil => rfl
  | cons t ts ih =>
      simp only [evalTrace] at h ⊢
      cases he : evalOne ev σ t with
      | error ex => rw [he] at h; simp at h
      | ok l =>
          rw [he] at h
          simp only at h
          simp [ih h]

theorem evalTrace_append_of_ok {σ : St} {pre ts : List EvalTuple}
    (h : (evalTrace ev σ pre).err = none) :
    evalTrace ev σ (pre ++ ts) =
      ⟨pre ++ (evalTrace ev σ ts).visited,
       (evalTrace ev σ pre).log ++ (evalTrace ev σ ts).log,
       (evalTrace ev σ ts).err⟩ := by
  induction pre with
  | nil => simp [evalTrace]
  | cons t p ih =>
      simp only [evalTrace] at h ⊢
      cases he : evalOne ev σ t with
      | error ex => rw [he] at h; simp at h
      | ok l =>
          rw [he] at h
          simp only at h
          simp only [List.cons_append, evalTrace, he, List.append_eq]
          rw [ih h]
          simp

/-- When the function phase raises no exception, `ERC` runs every function and
then evaluates the assertion records against the mutated state `σf`. -/
theorem ERC_of_funs_ok {w : ErcWorld F} {i : PyInst} {a : Args} {σ σf : St}
    (hf : foldFuns sem i a (classFuns w i ++ instFuns w i) σ = .ok σf) :
    ERC w sem ev i a σ =
      ⟨(classFuns w i ++ instFuns w i).map .call
         ++ (eval_stmnt_list w ev i σf).visited.map .evalStmnt,
       (eval_stmnt_list w ev i σf).log,
       match (eval_stmnt_list w ev i σf).err with
       | some ex => .error ex
       | none => .ok σf⟩ := by
  simp [ERC, exec_function_list, runFunctions_ok hf]

/-- Lemma: `ERC` reads the world only through the four lists it executes. -/
theorem ERC_congr_lists {w1 w2 : ErcWorld F} {i : PyInst} {a : Args} {σ : St}
    (h1 : classFuns w1 i = classFuns w2 i) (h2 : instFuns w1 i = instFuns w2 i)
    (h3 : classAsserts w1 i = classAsserts w2 i)
    (h4 : instAsserts w1 i = instAsserts w2 i) :
    ERC w1 sem ev i a σ = ERC w2 sem ev i a σ := by
  simp [ERC, exec_function_list, eval_stmnt_list, h1, h2, h3, h4]

end EngineLemmas

theorem nthCell_appendCell_self {α : Type} (h : List (List α)) (r : Nat) (x : α)
    (hr : r < h.length) : nthCell (appendCell h r x) r = nthCell h r ++ [x] :=
  nthCell_set_self h r _ hr

theorem nthCell_appendCell_ne {α : Type} (h : List (List α)) (r r' : Nat) (x : α)
    (hne : r ≠ r') : nthCell (appendCell h r x) r' = nthCell h r' :=
  nthCell_set_ne h r r' _ hne

/-! ## Supporting lemmas about the entity model -/

theorem nthCell_append_empty {α : Type} [EmptyCollection α] (h : List α) (r : Nat) :
    nthCell (h ++ [∅]) r = nthCell h r := by
  induction h generalizing r with
  | nil => cases r <;> rfl
  | cons a t ih => cases r with
      | zero => rfl
      | succ n => exact ih n

theorem nthCell_append_nil {β : Type} (h : List (List β)) (r : Nat) :
    nthCell (h ++ [[]]) r = nthCell h r :=
  nthCell_append_empty h r

theorem aliasesSet_fieldHeap {V : Type} (s : Store V) (e : Entity V) (x : StrOrList) :
    ((aliasesSet s e x).1).fieldHeap = s.fieldHeap := by
  simp only [aliasesSet]; split <;> rfl

theorem aliasesSet_noteHeap {V : Type} (s : Store V) (e : Entity V) (x : StrOrList) :
    ((aliasesSet s e x).1).noteHeap = s.noteHeap := by
  simp only [aliasesSet]; split <;> rfl

theorem aliasesSet_fields {V : Type} (s : Store V) (e : Entity V) (x : StrOrList) :
    ((aliasesSet s e x).2).fields = e.fields := by
  simp only [aliasesSet]; split <;> rfl

theorem aliasesSet_typ {V : Type} (s : Store V) (e : Entity V) (x : StrOrList) :
    ((aliasesSet s e x).2).typ = e.typ := by
  simp only [aliasesSet]; split <;> rfl

theorem aliasesSet_attrs {V : Type} (s : Store V) (e : Entity V) (x : StrOrList) :
    ((aliasesSet s e x).2).attrs = e.attrs := by
  simp only [aliasesSet]; split <;> rfl

theorem aliasesSet_notesAttr {V : Type} (s : Store V) (e : Entity V) (x : StrOrList) :
    ((aliasesSet s e x).2).notesAttr = e.notesAttr := by
  simp only [aliasesSet]; split <;> rfl

theorem notesSet_fieldHeap {V : Type} (s : Store V) (e : Entity V) (x : StrOrList) :
    ((notesSet s e x).1).fieldHeap = s.fieldHeap := by
  simp only [notesSet]; split <;> rfl

theorem notesSet_aliasHeap {V : Type} (s : Store V) (e : Entity V) (x : StrOrList) :
    ((notesSet s e x).1).aliasHeap = s.aliasHeap := by
  simp only [notesSet]; split <;> rfl

theorem notesSet_fields {V : Type} (s : Store V) (e : Entity V) (x : StrOrList) :
    ((notesSet s e x).2).fields = e.fields := by
  simp only [notesSet]; split <;> rfl

theorem notesSet_typ {V : Type} (s : Store V) (e : Entity V) (x : StrOrList) :
    ((notesSet s e x).2).typ = e.typ := by
  simp only [notesSet]; split <;> rfl

theorem notesSet_attrs {V : Type} (s : Store V) (e : Entity V) (x : StrOrList) :
    ((notesSet s e x).2).attrs = e.attrs := by
  simp only [notesSet]; split <;> rfl

theorem notesSet_aliasesAttr {V : Type} (s : Store V) (e : Entity V) (x : StrOrList) :
    ((notesSet s e x).2).aliasesAttr = e.aliasesAttr := by
  simp only [notesSet]; split <;> rfl

theorem copy_snd_fields {V : Type} (s : Store V) (e : Entity V) :
    ((copy s e).2).fields = s.fieldHeap.length + 1 := by
  simp only [copy]
  rw [notesSet_fields, aliasesSet_fields]
  simp [setFields, newSkidlBaseObject]

theorem copy_fst_fieldHeap {V : Type} (s : Store V) (e : Entity V) :
    ((copy s e).1).fieldHeap = (s.fieldHeap ++ [[]]) ++ [fieldMapOf s e] := by
  simp only [copy]
  rw [notesSet_fieldHeap, aliasesSet_fieldHeap]
  simp only [setFields, newSkidlBaseObject]
  have : fieldMapOf { s with fieldHeap := s.fieldHeap ++ [[]] } e = fieldMapOf s e := by
    simp only [fieldMapOf]
    exact nthCell_append_nil s.fieldHeap e.fields
  rw [this]

theorem copy_fieldMap {V : Type} (s : Store V) (e : Entity V) :
    fieldMapOf (copy s e).1 (copy s e).2 = fieldMapOf s e := by
  simp only [fieldMapOf]
  rw [copy_fst_fieldHeap, copy_snd_fields]
  have hlen : (s.fieldHeap ++ [[]]).length = s.fieldHeap.length + 1 := by simp
  rw [← hlen]
  exact nthCell_append_self _ _

theorem aliasesGet_set_fieldHeap {V : Type} (s : Store V) (X : List (List (String × V)))
    (e : Entity V) : aliasesGet { s with fieldHeap := X } e = aliasesGet s e := rfl

theorem notesGet_set_fieldHeap {V : Type} (s : Store V) (X : List (List (String × V)))
    (e : Entity V) : notesGet { s with fieldHeap := X } e = notesGet s e := rfl

theorem notesGet_aliasesSet {V : Type} (s : Store V) (e' : Entity V) (x : StrOrList)
    (e : Entity V) : notesGet ((aliasesSet s e' x).1) e = notesGet s e := by
  simp only [aliasesSet]; split <;> rfl

theorem setattr_fieldMap_other {V : Type} (s : Store V) (e' : Entity V) (k : String)
    (v : V) (e : Entity V) (hne : e'.fields ≠ e.fields) :
    fieldMapOf ((setattr s e' k v).1) e = fieldMapOf s e := by
  simp only [setattr, fieldMapOf]
  exact nthCell_set_ne _ _ _ _ hne

theorem copy_fieldMap_src {V : Type} (s : Store V) (e : Entity V)
    (hwf : e.fields < s.fieldHeap.length) :
    fieldMapOf (copy s e).1 e = fieldMapOf s e := by
  simp only [fieldMapOf]
  rw [copy_fst_fieldHeap]
  rw [nthCell_append_lt (s.fieldHeap ++ [[]]) _ e.fields (by simp; omega)]
  exact nthCell_append_nil s.fieldHeap e.fields

/-- Closed form of `copy`: the fresh entity refers to a freshly allocated
field-map cell holding the source content; the alias/note containers are
re-allocated only when the deep-copied content is truthy (non-empty). -/
theorem copy_characterization {V : Type} (s : Store V) (e : Entity V) :
    copy s e =
      ({ fieldHeap := (s.fieldHeap ++ [[]]) ++ [fieldMapOf s e],
         aliasHeap :=
           if aliasesGet s e = [] then s.aliasHeap
           else s.aliasHeap ++ [(aliasesGet s e).dedup],
         noteHeap :=
           if notesGet s e = [] then s.noteHeap
           else s.noteHeap ++ [notesGet s e] },
       { typ := "SkidlBaseObject",
         fields := (s.fieldHeap ++ [[]]).length,
         aliasesAttr :=
           if aliasesGet s e = [] then none else some s.aliasHeap.length,
         notesAttr :=
           if notesGet s e = [] then none else some s.noteHeap.length,
         attrs := [] }) := by
  have harg : fieldMapOf { s with fieldHeap := s.fieldHeap ++ [[]] } e = fieldMapOf s e :=
    nthCell_append_nil s.fieldHeap e.fields
  simp only [copy, newSkidlBaseObject, setFields, harg, notesGet_aliasesSet,
    aliasesGet_set_fieldHeap, notesGet_set_fieldHeap]
  by_cases hal : aliasesGet s e = []
  · by_cases hnt : notesGet s e = []
    · simp [hal, hnt, aliasesSet, notesSet, StrOrList.falsy]
    · obtain ⟨b, u, hbu⟩ := List.exists_cons_of_ne_nil hnt
      simp [hal, hnt, hbu, aliasesSet, notesSet, StrOrList.falsy, aliasMk, noteMk,
        StrOrList.toNames]
  · obtain ⟨a, t, hat⟩ := List.exists_cons_of_ne_nil hal
    by_cases hnt : notesGet s e = []
    · simp [hal, hnt, hat, aliasesSet, notesSet, StrOrList.falsy, aliasMk, noteMk,
        StrOrList.toNames]
    · obtain ⟨b, u, hbu⟩ := List.exists_cons_of_ne_nil hnt
      simp [hal, hnt, hat, hbu, aliasesSet, notesSet, StrOrList.falsy, aliasMk, noteMk,
        StrOrList.toNames]

/-! ## Claim C1 -/

/-- C1: for every base entity `E` and attribute name `K ≠ "fields"`, the
assignment `E.K = v` stores `v` as the attribute and then synchronizes the
field map for `K`, so that afterwards the field map contains `K` with value
`v`; assigning to the `"fields"` attribute itself does not sync but replaces
the whole field map with a field map built from the assigned mapping, held in
a fresh cell owned by the entity, leaving the other attributes untouched. -/
theorem C1_setattr_sync {V : Type} (s : Store V) (e : Entity V) (k : String)
    (v : V) (m : List (String × V)) (hk : k ≠ "fields")
    (hwf : e.fields < s.fieldHeap.length) :
    (lookupF ((setattr s e k v).2).attrs k = some v
      ∧ lookupF (fieldMapOf (setattr s e k v).1 (setattr s e k v).2) k = some v)
    ∧ (fieldMapOf (setFields s e m).1 (setFields s e m).2 = m
      ∧ ((setFields s e m).2).attrs = e.attrs
      ∧ ((setFields s e m).2).fields = s.fieldHeap.length) := by
  refine ⟨⟨?_, ?_⟩, ?_, rfl, rfl⟩
  · simp [setattr, lookupF_setF_self]
  · simp only [setattr, fieldMapOf]
    rw [nthCell_set_self _ _ _ hwf]
    simp only [sync, if_neg hk, lookupF_setF_self]
  · simp only [setFields, fieldMapOf]
    exact nthCell_append_self _ _

/-- Witness for C1 at a concrete input: key `"x"`, value `5`, replacement
mapping `[("a", 1)]`. -/
theorem C1_setattr_sync_witness :
    (("x" : String) ≠ "fields" ∧ exEntity.fields < exStore.fieldHeap.length)
    ∧ ((lookupF ((setattr exStore exEntity "x" 5).2).attrs "x" = some 5
      ∧ lookupF (fieldMapOf (setattr exStore exEntity "x" 5).1
          (setattr exStore exEntity "x" 5).2) "x" = some 5)
    ∧ (fieldMapOf (setFields exStore exEntity [("a", 1)]).1
          (setFields exStore exEntity [("a", 1)]).2 = [("a", 1)]
      ∧ ((setFields exStore exEntity [("a", 1)]).2).attrs = exEntity.attrs
      ∧ ((setFields exStore exEntity [("a", 1)]).2).fields
          = exStore.fieldHeap.length)) :=
  ⟨⟨by decide, by decide⟩,
   C1_setattr_sync exStore exEntity "x" 5 [("a", 1)] (by decide) (by decide)⟩

/-! ## Claim C5 -/

/-- C5 counterexample: an entity whose `_aliases` backing storage exists but
is empty.  The claim states "if S has alias or annotation backing storage, the
copy carries a deep duplicate of it", yet here the source has backing storage
(`aliasesAttr = some 0`) and the copy has none: `copy` reads the container
through the `aliases` getter and assigns it through the `aliases` setter,
which silently drops a falsy (empty) value. -/
theorem C5_copy_counterexample :
    exEntityEmptyAlias.aliasesAttr = some 0
    ∧ ((copy exStoreEmptyAlias exEntityEmptyAlias).2).aliasesAttr = none :=
  ⟨rfl, rfl⟩

/-- C5 (amended): `copy` returns an entity whose field map is a deep duplicate
of the source's — equal in content, held in a distinct fresh cell, so that
mutating the copy's fields never affects the source's; when the source's alias
or note container is non-empty the copy carries a deep duplicate of it (equal
content, distinct backing cell), and when the source's container is absent
**or present but empty** the copy has no backing storage for it. -/
theorem C5_copy_deep_duplicate {V : Type} (s : Store V) (e : Entity V)
    (hwf : e.fields < s.fieldHeap.length)
    (hal : ∀ r, e.aliasesAttr = some r →
        r < s.aliasHeap.length ∧ (nthCell s.aliasHeap r).Nodup)
    (hnt : ∀ r, e.notesAttr = some r → r < s.noteHeap.length) :
    (fieldMapOf (copy s e).1 (copy s e).2 = fieldMapOf s e
      ∧ ((copy s e).2).fields ≠ e.fields
      ∧ ∀ k v, fieldMapOf ((setattr (copy s e).1 (copy s e).2 k v).1) e
          = fieldMapOf s e)
    ∧ (aliasesGet s e ≠ [] →
        aliasesGet (copy s e).1 (copy s e).2 = aliasesGet s e
          ∧ ((copy s e).2).aliasesAttr.isSome = true
          ∧ ((copy s e).2).aliasesAttr ≠ e.aliasesAttr)
    ∧ (aliasesGet s e = [] → ((copy s e).2).aliasesAttr = none)
    ∧ (notesGet s e ≠ [] →
        notesGet (copy s e).1 (copy s e).2 = notesGet s e
          ∧ ((copy s e).2).notesAttr.isSome = true
          ∧ ((copy s e).2).notesAttr ≠ e.notesAttr)
    ∧ (notesGet s e = [] → ((copy s e).2).notesAttr = none) := by
  have hchar := copy_characterization s e
  refine ⟨⟨copy_fieldMap s e, ?_, ?_⟩, ?_, ?_, ?_, ?_⟩
  · rw [copy_snd_fields]; omega
  · intro k v
    rw [setattr_fieldMap_other _ _ _ _ _ (by rw [copy_snd_fields]; omega)]
    exact copy_fieldMap_src s e hwf
  · intro hne
    cases hea : e.aliasesAttr with
    | none => exact absurd (by simp [aliasesGet, hea]) hne
    | some r =>
        obtain ⟨hrlt, hnd⟩ := hal r hea
        have hdedup : (aliasesGet s e).dedup = aliasesGet s e := by
          have hget : aliasesGet s e = nthCell s.aliasHeap r := by
            simp [aliasesGet, hea]
          rw [hget]
          exact List.dedup_eq_self.mpr hnd
        refine ⟨?_, ?_, ?_⟩
        · rw [hchar]
          simp only [if_neg hne]
          show nthCell (s.aliasHeap ++ [(aliasesGet s e).dedup]) s.aliasHeap.length
              = aliasesGet s e
          rw [nthCell_append_self]
          exact hdedup
        · rw [hchar]
          simp [hne]
        · rw [hchar]
          simp only [hea, if_neg hne]
          simp only [ne_eq, Option.some.injEq]
          omega
  · intro h0
    rw [hchar]
    simp [h0]
  · intro hne
    cases hen : e.notesAttr with
    | none => exact absurd (by simp [notesGet, hen]) hne
    | some r =>
        have hrlt := hnt r hen
        refine ⟨?_, ?_, ?_⟩
        · rw [hchar]
          simp only [if_neg hne]
          show nthCell (s.noteHeap ++ [notesGet s e]) s.noteHeap.length = notesGet s e
          exact nthCell_append_self _ _
        · rw [hchar]
          simp [hne]
        · rw [hchar]
          simp only [hen, if_neg hne]
          simp only [ne_eq, Option.some.injEq]
          omega
  · intro h0
    rw [hchar]
    simp [h0]

/-- Witness for C5 (amended) at a concrete input: a `"Part"` entity with
fields `{"a": 1}`, aliases `["A", "B"]` and notes `["x"]`. -/
theorem C5_copy_deep_duplicate_witness :
    fieldMapOf (copy exStoreC5 exEntityC5).1 (copy exStoreC5 exEntityC5).2
        = fieldMapOf exStoreC5 exEntityC5
    ∧ aliasesGet (copy exStoreC5 exEntityC5).1 (copy exStoreC5 exEntityC5).2
        = aliasesGet exStoreC5 exEntityC5
    ∧ ((copy exStoreC5 exEntityC5).2).aliasesAttr ≠ exEntityC5.aliasesAttr
    ∧ notesGet (copy exStoreC5 exEntityC5).1 (copy exStoreC5 exEntityC5).2
        = notesGet exStoreC5 exEntityC5
    ∧ ((copy exStoreC5 exEntityC5).2).notesAttr ≠ exEntityC5.notesAttr := by
  have h := C5_copy_deep_duplicate exStoreC5 exEntityC5 (by decide)
    (fun r hr => by
      have hr0 : r = 0 := by simp [exEntityC5] at hr; omega
      subst hr0
      exact ⟨by decide, by decide⟩)
    (fun r hr => by
      have hr0 : r = 0 := by simp [exEntityC5] at hr; omega
      subst hr0
      decide)
  have hea : aliasesGet exStoreC5 exEntityC5 ≠ [] := by decide
  have hen : notesGet exStoreC5 exEntityC5 ≠ [] := by decide
  exact ⟨h.1.1, (h.2.1 hea).1, (h.2.1 hea).2.2,
    (h.2.2.2.1 hen).1, (h.2.2.2.1 hen).2.2⟩

/-! ## Claim C6 -/

/-- C6: for every entity of any subclass, `copy` constructs its result as the
base entity type itself (`cpy = SkidlBaseObject()`), not as the runtime type
of the receiver, and carries over none of the receiver's plain instance
attributes beyond the freshly assigned fields/aliases/notes. -/
theorem C6_copy_base_type {V : Type} (s : Store V) (e : Entity V) :
    ((copy s e).2).typ = "SkidlBaseObject" ∧ ((copy s e).2).attrs = [] := by
  rw [copy_characterization]
  exact ⟨rfl, rfl⟩

/-! ## Claim C7 -/

/-- C7: assigning an empty/falsy value to the `aliases` or `notes` property
leaves the store and the entity untouched (existing backing storage unchanged,
none created when absent); deleting the property removes the backing storage,
after which a read returns a fresh empty container while the entity still has
no backing storage; deleting again is a no-op (the deleter is total — no error
is raised either way). -/
theorem C7_falsy_set_delete {V : Type} (s : Store V) (e : Entity V)
    (x : StrOrList) (hx : x.falsy = true) :
    aliasesSet s e x = (s, e) ∧ notesSet s e x = (s, e)
    ∧ ((aliasesDel e).aliasesAttr = none ∧ aliasesGet s (aliasesDel e) = []
        ∧ aliasesDel (aliasesDel e) = aliasesDel e)
    ∧ ((notesDel e).notesAttr = none ∧ notesGet s (notesDel e) = []
        ∧ notesDel (notesDel e) = notesDel e) := by
  refine ⟨?_, ?_, ⟨rfl, rfl, rfl⟩, ⟨rfl, rfl, rfl⟩⟩
  · simp [aliasesSet, hx]
  · simp [notesSet, hx]

/-- Witness for C7 at a concrete input: the falsy value `[]` (an empty
sequence) on an entity that has alias backing storage. -/
theorem C7_falsy_set_delete_witness :
    (StrOrList.list []).falsy = true
    ∧ (aliasesSet exStoreEmptyAlias exEntityEmptyAlias (.list [])
          = (exStoreEmptyAlias, exEntityEmptyAlias)
      ∧ notesSet exStoreEmptyAlias exEntityEmptyAlias (.list [])
          = (exStoreEmptyAlias, exEntityEmptyAlias)
      ∧ (((aliasesDel exEntityEmptyAlias).aliasesAttr = none)
          ∧ aliasesGet exStoreEmptyAlias (aliasesDel exEntityEmptyAlias) = []
          ∧ aliasesDel (aliasesDel exEntityEmptyAlias) = aliasesDel exEntityEmptyAlias)
      ∧ (((notesDel exEntityEmptyAlias).notesAttr = none)
          ∧ notesGet exStoreEmptyAlias (notesDel exEntityEmptyAlias) = []
          ∧ notesDel (notesDel exEntityEmptyAlias) = notesDel exEntityEmptyAlias)) :=
  ⟨rfl, C7_falsy_set_delete exStoreEmptyAlias exEntityEmptyAlias (.list []) rfl⟩

/-! ## Claim C3 -/

/-- C3: `ERC(*args, **kwargs)` executes, in this exact order: every
class-scoped check function, then every instance-scoped check function (each
invoked through `sem` with the entity instance as first argument and all
supplied arguments, in list — i.e. registration — order), then every
class-scoped assertion, then every instance-scoped assertion; the assertions
are evaluated against the state `σf` produced by the whole function phase, so
an assertion observes every mutation performed by an earlier function of the
same run. -/
theorem C3_erc_order {F St Args : Type}
    (w : ErcWorld F) (sem : F → PyInst → Args → St → Except PyErr St)
    (ev : String → St → Except PyErr Bool) (i : PyInst) (a : Args) (σ σf : St)
    (hf : foldFuns sem i a (classFuns w i ++ instFuns w i) σ = .ok σf)
    (ha : (evalTrace ev σf (classAsserts w i ++ instAsserts w i)).err = none) :
    ERC w sem ev i a σ =
      ⟨((classFuns w i).map .call ++ (instFuns w i).map .call)
        ++ ((classAsserts w i).map .evalStmnt ++ (instAsserts w i).map .evalStmnt),
       (evalTrace ev σf (classAsserts w i ++ instAsserts w i)).log,
       .ok σf⟩ := by
  rw [ERC_of_funs_ok hf]
  simp only [eval_stmnt_list]
  rw [evalTrace_visited_of_ok ha, ha]
  simp [List.map_append]

/-- Witness for C3 at a concrete input: starting from state 0, the class
function adds 5, the instance function adds 7, and both assertions — which
are true only of the mutated state 12 — are then evaluated and pass. -/
theorem C3_erc_order_witness :
    foldFuns semAdd exInst3 () (classFuns exW3 exInst3 ++ instFuns exW3 exInst3) 0
        = .ok 12
    ∧ ERC exW3 semAdd evTwelve exInst3 () 0 =
        ⟨[.call 5, .call 7, .evalStmnt exTupleA, .evalStmnt exTupleB], [], .ok 12⟩ :=
  ⟨rfl, C3_erc_order exW3 semAdd evTwelve exInst3 () 0 12 rfl rfl⟩

/-! ## Claim C9 -/

/-- C9: if a registered check function raises during the function phase of
`ERC`, the exception propagates out of `ERC` to its caller, and neither any
later-registered function nor any assertion (class- or instance-scoped) is
executed in that run: the event trace stops at the failing call, and nothing
is logged. -/
theorem C9_function_raise_aborts {F St Args : Type}
    (w : ErcWorld F) (sem : F → PyInst → Args → St → Except PyErr St)
    (ev : String → St → Except PyErr Bool) (i : PyInst) (a : Args) (σ σ1 : St)
    (pre post : List F) (g : F) (ex : PyErr)
    (hsplit : classFuns w i ++ instFuns w i = pre ++ g :: post)
    (hpre : foldFuns sem i a pre σ = .ok σ1)
    (hg : sem g i a σ1 = .error ex) :
    ERC w sem ev i a σ = ⟨(pre ++ [g]).map .call, [], .error ex⟩ := by
  simp only [ERC, exec_function_list, hsplit]
  rw [runFunctions_error hpre hg]

/-- Witness for C9 at a concrete input: `"bad"` raises after `"good"` ran;
`"late"` and the registered assertion are never executed. -/
theorem C9_function_raise_aborts_witness :
    (classFuns exW9 exInst9 ++ instFuns exW9 exInst9 = ["good"] ++ "bad" :: ["late"]
      ∧ foldFuns semRaise exInst9 () ["good"] 0 = .ok 1
      ∧ semRaise "bad" exInst9 () 1 = .error (.otherError "ValueError"))
    ∧ ERC exW9 semRaise evTwelve exInst9 () 0
        = ⟨(["good"] ++ ["bad"]).map .call, [], .error (.otherError "ValueError")⟩ :=
  ⟨⟨rfl, rfl, rfl⟩,
   C9_function_raise_aborts exW9 semRaise evTwelve exInst9 () 0 1
     ["good"] ["late"] "bad" (.otherError "ValueError") rfl rfl rfl⟩

/-! ## Claim C2 -/

theorem lookupErc_of_direct (c : PyClass) (r : Nat) (hc : c.ercDirect = some r) :
    c.lookupErc = some r := by
  cases c with
  | mk o oa p =>
      simp only [PyClass.ercDirect] at hc
      subst hc
      rfl

theorem lookupAsrt_of_direct (c : PyClass) (r : Nat) (hc : c.asrtDirect = some r) :
    c.lookupAsrt = some r := by
  cases c with
  | mk o oa p =>
      simp only [PyClass.asrtDirect] at hc
      subst hc
      cases o <;> rfl

/-- C2 counterexample.  First conjunct: a check registered on fresh instance
`exI1` (which has no private list, so `self.erc_list` resolves to the class
fallback list) IS executed by the sibling `exI2`'s `ERC()` — the claim says it
never is.  Second conjunct: a check registered on the base class itself is NOT
executed by `ERC` on an instance of an unshadowed subclass, because
`exec_function_list` consults only the direct class `__dict__` — the claim
says it runs for every such instance. -/
theorem C2_counterexample :
    (add_erc_function_inst exW0 exI1 "chk").map
        (fun w1 => (ERC w1 semOkU evTrueU exI2 () ()).events)
      = some [ErcEvent.call "chk"]
    ∧ (add_erc_function_cls exW0 exBase "chk2").map
        (fun w2 => (ERC w2 semOkU evTrueU exJ () ()).events)
      = some [] :=
  ⟨rfl, rfl⟩

/-- C2 (amended): registration appends to the list found by Python attribute
lookup, while `exec_function_list`/`eval_stmnt_list` read only the direct
class `__dict__` and the instance `__dict__`.  Hence (1) a check function or
assertion registered on a class whose own `__dict__` stores the list is
appended to that list and is run by `ERC` for every instance whose direct
class it is — but (2) never propagates to instances of subclasses that do not
locally shadow the list; and (3) a check registered on an instance `i1` is
private to `i1` exactly when `i1` already has its own instance-level list: it
is then appended there and executed by `i1.ERC()`, while any sibling whose
own list references differ from `i1`'s observes a completely unchanged
`ERC`. -/
theorem C2_scoping_amended {F : Type} (w : ErcWorld F) (f : F) (t : EvalTuple)
    (c : PyClass) (r : Nat) (hc : c.ercDirect = some r) (hr : r < w.funHeap.length)
    (ca : PyClass) (ra : Nat) (hca : ca.asrtDirect = some ra)
    (hra : ra < w.asrtHeap.length)
    (i1 : PyInst) (r1 : Nat) (h1 : i1.ercRef = some r1) (hr1 : r1 < w.funHeap.length) :
    (∃ w', add_erc_function_cls w c f = some w'
        ∧ ∀ i : PyInst, i.cls = c → classFuns w' i = classFuns w i ++ [f])
    ∧ (∃ w', add_erc_assertion_cls w ca t = some w'
        ∧ ∀ i : PyInst, i.cls = ca → classAsserts w' i = classAsserts w i ++ [t])
    ∧ (∀ w' : ErcWorld F, ∀ i : PyInst, i.cls.ercDirect = none → classFuns w' i = [])
    ∧ (∃ w', add_erc_function_inst w i1 f = some w'
        ∧ instFuns w' i1 = instFuns w i1 ++ [f]
        ∧ ∀ (St Args : Type) (sem : F → PyInst → Args → St → Except PyErr St)
            (ev : String → St → Except PyErr Bool) (a : Args) (σ : St) (i2 : PyInst),
            (∀ rc, i2.cls.ercDirect = some rc → rc ≠ r1) →
            (∀ r2, i2.ercRef = some r2 → r2 ≠ r1) →
            ERC w' sem ev i2 a σ = ERC w sem ev i2 a σ) := by
  refine ⟨?_, ?_, ?_, ?_⟩
  · refine ⟨{ w with funHeap := appendCell w.funHeap r f }, ?_, ?_⟩
    · simp [add_erc_function_cls, lookupErc_of_direct c r hc]
    · intro i hi
      simp only [classFuns, hi, hc]
      exact nthCell_appendCell_self _ _ _ hr
  · refine ⟨{ w with asrtHeap := appendCell w.asrtHeap ra t }, ?_, ?_⟩
    · simp [add_erc_assertion_cls, lookupAsrt_of_direct ca ra hca]
    · intro i hi
      simp only [classAsserts, hi, hca]
      exact nthCell_appendCell_self _ _ _ hra
  · intro w' i hnone
    simp [classFuns, hnone]
  · refine ⟨{ w with funHeap := appendCell w.funHeap r1 f }, ?_, ?_, ?_⟩
    · simp [add_erc_function_inst, PyInst.attrErc, h1]
    · simp only [instFuns, h1]
      exact nthCell_appendCell_self _ _ _ hr1
    · intro St Args sem ev a σ i2 hcls hinst
      apply ERC_congr_lists
      · cases hd : i2.cls.ercDirect with
        | none => simp [classFuns, hd]
        | some rc =>
            simp only [classFuns, hd]
            exact nthCell_appendCell_ne _ _ _ _ (hcls rc hd).symm
      · cases hd : i2.ercRef with
        | none => simp [instFuns, hd]
        | some r2 =>
            simp only [instFuns, hd]
            exact nthCell_appendCell_ne _ _ _ _ (hinst r2 hd).symm
      · rfl
      · rfl

/-- Witness for C2 (amended) at a concrete input: the base class stores both
lists itself, and `exI1P` owns a private function list. -/
theorem C2_scoping_amended_witness :
    (exBase.ercDirect = some 0 ∧ (0 : Nat) < exWC2.funHeap.length
      ∧ exBase.asrtDirect = some 0 ∧ (0 : Nat) < exWC2.asrtHeap.length
      ∧ exI1P.ercRef = some 1 ∧ (1 : Nat) < exWC2.funHeap.length)
    ∧ ((∃ w', add_erc_function_cls exWC2 exBase "f" = some w'
        ∧ ∀ i : PyInst, i.cls = exBase → classFuns w' i = classFuns exWC2 i ++ ["f"])
    ∧ (∃ w', add_erc_assertion_cls exWC2 exBase exTupleA = some w'
        ∧ ∀ i : PyInst, i.cls = exBase →
            classAsserts w' i = classAsserts exWC2 i ++ [exTupleA])
    ∧ (∀ w' : ErcWorld String, ∀ i : PyInst, i.cls.ercDirect = none →
        classFuns w' i = [])
    ∧ (∃ w', add_erc_function_inst exWC2 exI1P "f" = some w'
        ∧ instFuns w' exI1P = instFuns exWC2 exI1P ++ ["f"]
        ∧ ∀ (St Args : Type) (sem : String → PyInst → Args → St → Except PyErr St)
            (ev : String → St → Except PyErr Bool) (a : Args) (σ : St) (i2 : PyInst),
            (∀ rc, i2.cls.ercDirect = some rc → rc ≠ 1) →
            (∀ r2, i2.ercRef = some r2 → r2 ≠ 1) →
            ERC w' sem ev i2 a σ = ERC exWC2 sem ev i2 a σ)) :=
  ⟨⟨rfl, by decide, rfl, by decide, rfl, by decide⟩,
   C2_scoping_amended exWC2 "f" exTupleA exBase 0 rfl (by decide) exBase 0 rfl
     (by decide) exI1P 1 rfl (by decide)⟩

/-- C4 counterexample: the captured expression fails to evaluate for a reason
other than producing a false value — its evaluation raises an
`AssertionError` of its own — yet the error does NOT propagate out of `ERC()`
(the outcome is `.ok`) and the record IS logged as a rule violation: the
handler `except AssertionError` around the `assert` statement cannot
distinguish the evaluation's own `AssertionError` from a false result. -/
theorem C4_counterexample :
    ERC exWA semIdN evBoom exInstA () 0
      = ⟨[.evalStmnt exTupleBoom], [⟨ERROR, log_msg exTupleBoom⟩], .ok 0⟩ := rfl

/-- C4 (amended): an error raised while evaluating an assertion expression
propagates out of `ERC()` to its caller and the failing record is not logged
as a rule violation — unless the raised error is itself an `AssertionError`,
which is caught by the handler around the `assert` and reported exactly like a
false result; a false result, by contrast, is only reported and is never
raised. -/
theorem C4_eval_error_handling {F St Args : Type}
    (w : ErcWorld F) (sem : F → PyInst → Args → St → Except PyErr St)
    (ev : String → St → Except PyErr Bool) (i : PyInst) (a : Args) (σ σf : St)
    (pre post : List EvalTuple) (t : EvalTuple)
    (hf : foldFuns sem i a (classFuns w i ++ instFuns w i) σ = .ok σf)
    (hsplit : classAsserts w i ++ instAsserts w i = pre ++ t :: post)
    (hpre : (evalTrace ev σf pre).err = none) :
    (∀ ex : PyErr, ex ≠ .assertionError → ev t.stmnt σf = .error ex →
        ERC w sem ev i a σ =
          ⟨(classFuns w i ++ instFuns w i).map .call ++ (pre ++ [t]).map .evalStmnt,
           (evalTrace ev σf pre).log, .error ex⟩)
    ∧ ((ev t.stmnt σf = .ok false ∨ ev t.stmnt σf = .error .assertionError) →
        ERC w sem ev i a σ =
          ⟨(classFuns w i ++ instFuns w i).map .call
             ++ (pre ++ t :: (evalTrace ev σf post).visited).map .evalStmnt,
           (evalTrace ev σf pre).log
             ++ (erc_report t ++ (evalTrace ev σf post).log),
           match (evalTrace ev σf post).err with
           | some ex2 => .error ex2
           | none => .ok σf⟩) := by
  constructor
  · intro ex hexne hev
    rw [ERC_of_funs_ok hf]
    simp only [eval_stmnt_list, hsplit]
    rw [evalTrace_append_of_ok hpre]
    have hone : evalOne ev σf t = .error ex := by
      cases ex with
      | assertionError => exact absurd rfl hexne
      | nameError s => simp [evalOne, hev]
      | otherError s => simp [evalOne, hev]
    simp only [evalTrace, hone]
    simp
  · intro hcase
    rw [ERC_of_funs_ok hf]
    simp only [eval_stmnt_list, hsplit]
    rw [evalTrace_append_of_ok hpre]
    have hone : evalOne ev σf t = .ok (erc_report t) := by
      cases hcase with
      | inl h => simp [evalOne, h]
      | inr h => simp [evalOne, h]
    simp only [evalTrace, hone]

/-- Witness for C4 (amended) at a concrete input: a `NameError` raised during
evaluation propagates out of `ERC` and nothing is logged. -/
theorem C4_eval_error_handling_witness :
    (PyErr.nameError "undefined_name" ≠ PyErr.assertionError
      ∧ evName "undefined_name" 0 = .error (.nameError "undefined_name"))
    ∧ ERC exWN semIdN evName exInstA () 0
        = ⟨[.evalStmnt exTupleN], [], .error (.nameError "undefined_name")⟩ :=
  ⟨⟨by decide, rfl⟩,
   (C4_eval_error_handling exWN semIdN evName exInstA () 0 0 [] [] exTupleN
       rfl rfl rfl).1 (.nameError "undefined_name") (by decide) rfl⟩

/-! ## Claim C8 -/

/-- C8: an assertion whose expression evaluates to a false value during ERC
produces exactly one log entry, at the record's declared severity (`ERROR` or
`WARNING`), whose message combines the expression text, failure message, file
name, line number and function name (`log_msg`); the failure does not stop
evaluation — every subsequent assertion of the same run is still evaluated. -/
theorem C8_false_assertion_logged {F St Args : Type}
    (w : ErcWorld F) (sem : F → PyInst → Args → St → Except PyErr St)
    (ev : String → St → Except PyErr Bool) (i : PyInst) (a : Args) (σ σf : St)
    (pre post : List EvalTuple) (t : EvalTuple)
    (hf : foldFuns sem i a (classFuns w i ++ instFuns w i) σ = .ok σf)
    (hsplit : classAsserts w i ++ instAsserts w i = pre ++ t :: post)
    (hpre : (evalTrace ev σf pre).err = none)
    (ht : ev t.stmnt σf = .ok false)
    (hsev : t.severity = ERROR ∨ t.severity = WARNING)
    (hpost : (evalTrace ev σf post).err = none) :
    ERC w sem ev i a σ =
      ⟨(classFuns w i ++ instFuns w i).map .call ++ (pre ++ t :: post).map .evalStmnt,
       (evalTrace ev σf pre).log
         ++ ([⟨t.severity, log_msg t⟩] ++ (evalTrace ev σf post).log),
       .ok σf⟩ := by
  have hrep : erc_report t = [⟨t.severity, log_msg t⟩] := by
    rcases hsev with h | h
    · simp [erc_report, h]
    · simp [erc_report, h, ERROR, WARNING]
  rw [ERC_of_funs_ok hf]
  simp only [eval_stmnt_list, hsplit]
  rw [evalTrace_append_of_ok hpre]
  have hone : evalOne ev σf t = .ok (erc_report t) := by simp [evalOne, ht]
  simp only [evalTrace, hone]
  rw [evalTrace_visited_of_ok hpost, hpost, hrep]

/-- Witness for C8 at a concrete input: the first assertion is false and
logged once at `ERROR` level; the second is still evaluated afterwards. -/
theorem C8_false_assertion_logged_witness :
    (evOnlyTrue "len(x) > 0" 0 = .ok false ∧ exTupleF.severity = ERROR)
    ∧ ERC exW8 semIdN evOnlyTrue exInstA () 0 =
        ⟨[.evalStmnt exTupleF, .evalStmnt exTupleT],
         [⟨exTupleF.severity, log_msg exTupleF⟩], .ok 0⟩ :=
  ⟨⟨rfl, rfl⟩,
   C8_false_assertion_logged exW8 semIdN evOnlyTrue exInstA () 0 0 [] [exTupleT]
     exTupleF rfl rfl rfl rfl (Or.inl rfl) rfl⟩

/-! ## Claim C10 -/

/-- C10: a false-evaluating assertion whose severity is neither `ERROR` nor
`WARNING` emits no log entry at all — the violation is silently dropped
(`erc_report` has no `else` arm) — while evaluation of subsequent assertions
still continues. -/
theorem C10_other_severity_silent {F St Args : Type}
    (w : ErcWorld F) (sem : F → PyInst → Args → St → Except PyErr St)
    (ev : String → St → Except PyErr Bool) (i : PyInst) (a : Args) (σ σf : St)
    (pre post : List EvalTuple) (t : EvalTuple)
    (hf : foldFuns sem i a (classFuns w i ++ instFuns w i) σ = .ok σf)
    (hsplit : classAsserts w i ++ instAsserts w i = pre ++ t :: post)
    (hpre : (evalTrace ev σf pre).err = none)
    (ht : ev t.stmnt σf = .ok false)
    (hsev : t.severity ≠ ERROR ∧ t.severity ≠ WARNING)
    (hpost : (evalTrace ev σf post).err = none) :
    ERC w sem ev i a σ =
      ⟨(classFuns w i ++ instFuns w i).map .call ++ (pre ++ t :: post).map .evalStmnt,
       (evalTrace ev σf pre).log ++ (evalTrace ev σf post).log,
       .ok σf⟩ := by
  have hrep : erc_report t = [] := by simp [erc_report, hsev.1, hsev.2]
  rw [ERC_of_funs_ok hf]
  simp only [eval_stmnt_list, hsplit]
  rw [evalTrace_append_of_ok hpre]
  have hone : evalOne ev σf t = .ok (erc_report t) := by simp [evalOne, ht]
  simp only [evalTrace, hone]
  rw [evalTrace_visited_of_ok hpost, hpost, hrep]
  simp

/-- Witness for C10 at a concrete input: the severity-0 violation produces no
log entry and the following assertion is still evaluated. -/
theorem C10_other_severity_silent_witness :
    (evOnlyTrue "zero_sev" 0 = .ok false
      ∧ exTupleZ.severity ≠ ERROR ∧ exTupleZ.severity ≠ WARNING)
    ∧ ERC exW10 semIdN evOnlyTrue exInstA () 0 =
        ⟨[.evalStmnt exTupleZ, .evalStmnt exTupleT], [], .ok 0⟩ :=
  ⟨⟨rfl, by decide, by decide⟩,
   C10_other_severity_silent exW10 semIdN evOnlyTrue exInstA () 0 0 [] [exTupleT]
     exTupleZ rfl rfl rfl rfl ⟨by decide, by decide⟩ rfl⟩

end Spec2Proof
